import Mathlib

/-!
Verification of the secure-messenger repository against its natural-language
specification.

The definitions below are a shallow embedding of the Rust source: pure
functions become Lean functions, the random bytes drawn by the source become
explicit parameters, machine integers become Nat with explicit reductions
modulo powers of two, database state becomes lists of row structures, and the
in-memory connection registry becomes association lists with first-match
lookup, mirroring the DashMap operations actually used.  Each definition
cites the source file and lines it embeds.
-/

namespace SecureMessenger

/-! ## User-id generation (src/server/src/crypto.rs, lines 21-34) -/

/-- The 62-character alphanumeric alphabet of generate_user_id
(src/server/src/crypto.rs, lines 27-29). -/
def uidAlphabet : List Char :=
  "0123456789ABCDEFGHIJKLMNOPQRSTUVWXYZabcdefghijklmnopqrstuvwxyz".data

/-- Per-position map from one random byte to a character:
chars[(*b as usize) % chars.len()] (src/server/src/crypto.rs, line 32). -/
def uidByteToChar (b : Nat) : Char :=
  uidAlphabet.getD (b % uidAlphabet.length) ' '

/-- generate_user_id with the 8 CSPRNG bytes made explicit: each byte is mapped
through uidByteToChar (src/server/src/crypto.rs, lines 21-34). -/
def generate_user_id (randomBytes : List Nat) : List Char :=
  randomBytes.map uidByteToChar

/-- Number of byte values in 0..=255 that uidByteToChar sends to the
character c. -/
def uidPreimageCount (c : Char) : Nat :=
  ((List.range 256).filter (fun b => uidByteToChar b == c)).length

/-- C10 counterexample: the per-position byte-to-character map of
generate_user_id is not uniform.  The character at alphabet index 0 has 5
byte preimages while the character at index 61 has 4, so not every one of the
62 characters receives an equal number of preimages. -/
theorem uid_alphabet_bias_counterexample :
    uidPreimageCount '0' = 5 ∧ uidPreimageCount 'z' = 4 ∧
      uidPreimageCount '0' ≠ uidPreimageCount 'z' := by
  decide

/-- C10 amended: every character of generate_user_id output comes from the map
byte b to uidAlphabet[b mod 62]; under a uniformly random byte the preimage
counts are 5 for the first 8 alphabet characters (digits 0 through 7) and 4
for the remaining 54, a modulo-bias rather than a uniform distribution. -/
theorem uid_alphabet_preimage_counts :
    ∀ i < 62, uidPreimageCount (uidAlphabet.getD i ' ') =
      if i < 8 then 5 else 4 := by
  decide

/-- C10 witness: the amended preimage count evaluated at alphabet index 0. -/
theorem uid_alphabet_preimage_counts_witness :
    uidPreimageCount (uidAlphabet.getD 0 ' ') = if 0 < 8 then 5 else 4 :=
  uid_alphabet_preimage_counts 0 (by decide)

/-! ## Wire messages (src/server/src/models.rs) -/

/-- The message envelope relayed by the server (src/server/src/models.rs).
Only the fields used by the claims are modelled; message_type is kept as its
wire string and timestamps as integer epoch seconds. -/
structure MessageEnvelope where
  message_id : String
  sender_id : String
  recipient_id : String
  recipient_device_id : Option String
  encrypted_content : String
  message_type : String
  timestamp : Int
deriving DecidableEq, Repr

/-- Server-to-client WebSocket frames used by the modelled handler branches
(src/server/src/models.rs, WsServerMessage). -/
inductive WsServerMessage where
  | authenticated (user_id device_id : String)
  | error (code msg : String)
  | message (env : MessageEnvelope)
  | acknowledged (message_ids : List String)
  | pong
deriving DecidableEq, Repr

/-! ## ConnectionRegistry (src/server/src/websocket.rs)

The DashMaps of WebSocketManager are modelled as association lists with
first-match lookup and replace-or-append insert; an UnboundedSender channel
handle is modelled as a Nat identifier, and enqueueing a frame on a channel is
recorded as a (channel, frame) event. -/

/-- An active WebSocket connection (src/server/src/websocket.rs, lines 8-14). -/
structure Connection where
  user_id : String
  device_id : String
  sender : Nat
deriving DecidableEq, Repr

/-- First-match lookup in an association list (model of DashMap::get). -/
def lookupA {β : Type} (m : List (String × β)) (k : String) : Option β :=
  (m.find? (fun p => p.1 == k)).map (fun p => p.2)

/-- Replace-or-append insert in an association list (model of
DashMap::insert). -/
def insertA {β : Type} (m : List (String × β)) (k : String) (v : β) :
    List (String × β) :=
  if m.any (fun p => p.1 == k) then
    m.map (fun p => if p.1 == k then (k, v) else p)
  else
    m ++ [(k, v)]

/-- Model of connections.entry(k).or_insert_with(Vec::new).push(c): append the
connection to the vec of the user, creating the entry when absent
(src/server/src/websocket.rs, lines 40-44). -/
def pushConn (m : List (String × List Connection)) (k : String)
    (c : Connection) : List (String × List Connection) :=
  if m.any (fun p => p.1 == k) then
    m.map (fun p => if p.1 == k then (p.1, p.2 ++ [c]) else p)
  else
    m ++ [(k, [c])]

/-- The WebSocketManager state (src/server/src/websocket.rs, lines 17-22):
user_id to vec of connections, and device_id to user_id. -/
structure WebSocketManager where
  connections : List (String × List Connection)
  device_to_user : List (String × String)
deriving DecidableEq, Repr

/-- WebSocketManager::new (src/server/src/websocket.rs, lines 25-30). -/
def WebSocketManager.empty : WebSocketManager := ⟨[], []⟩

/-- WebSocketManager::register (src/server/src/websocket.rs, lines 33-50):
push the new connection onto the vec of the user and map device to user. -/
def register (m : WebSocketManager) (user_id device_id : String)
    (sender : Nat) : WebSocketManager :=
  { connections := pushConn m.connections user_id ⟨user_id, device_id, sender⟩
    device_to_user := insertA m.device_to_user device_id user_id }

/-- WebSocketManager::is_user_online (src/server/src/websocket.rs,
lines 70-72). -/
def is_user_online (m : WebSocketManager) (user_id : String) : Bool :=
  match lookupA m.connections user_id with
  | none => false
  | some conns => !conns.isEmpty

/-- WebSocketManager::send_to_user (src/server/src/websocket.rs,
lines 88-96): enqueue the frame on every connection of the user. -/
def send_to_user (m : WebSocketManager) (user_id : String)
    (msg : WsServerMessage) : List (Nat × WsServerMessage) :=
  match lookupA m.connections user_id with
  | none => []
  | some conns => conns.map (fun c => (c.sender, msg))

/-- WebSocketManager::send_to_device (src/server/src/websocket.rs,
lines 99-112): look the device up in device_to_user, then iterate the vec of
that user and enqueue on the FIRST connection whose device_id matches, then
return. -/
def send_to_device (m : WebSocketManager) (device_id : String)
    (msg : WsServerMessage) : List (Nat × WsServerMessage) :=
  match lookupA m.device_to_user device_id with
  | none => []
  | some uid =>
    match lookupA m.connections uid with
    | none => []
    | some conns =>
      match conns.find? (fun c => c.device_id == device_id) with
      | none => []
      | some c => [(c.sender, msg)]

/-- WebSocketManager::send_to_other_devices (src/server/src/websocket.rs,
lines 115-125): enqueue on every connection of the user except the excluded
device. -/
def send_to_other_devices (m : WebSocketManager)
    (user_id exclude_device_id : String) (msg : WsServerMessage) :
    List (Nat × WsServerMessage) :=
  match lookupA m.connections user_id with
  | none => []
  | some conns =>
    (conns.filter (fun c => c.device_id != exclude_device_id)).map
      (fun c => (c.sender, msg))

/-- All live connections in the registry identified by the given device id
(across every user vec). -/
def liveConnectionsForDevice (m : WebSocketManager) (device_id : String) :
    List Connection :=
  ((m.connections.map (fun p => p.2)).flatten).filter
    (fun c => c.device_id == device_id)

/-- C1 (code bug evidence): starting from the empty registry, register(u, d,
channel 1) followed by register(u, d, channel 2) leaves TWO live connections
identified by device d — the prior entry is not displaced — and a subsequent
send_to_device(d, m) enqueues m on channel 1, the stale first registration,
never reaching channel 2.  This contradicts the displacement the spec
requires. -/
theorem register_no_displacement_failing_input :
    (liveConnectionsForDevice
      (register (register WebSocketManager.empty "u" "d" 1) "u" "d" 2)
      "d").length = 2 ∧
    send_to_device (register (register WebSocketManager.empty "u" "d" 1)
      "u" "d" 2) "d" WsServerMessage.pong = [(1, WsServerMessage.pong)] := by
  decide

/-! ## MessageSpool rows and operations (src/server/src/storage.rs) -/

/-- One row of the pending_messages table (src/server/src/storage.rs;
src/server/src/models.rs, PendingMessage).  Timestamps are modelled as integer
epoch seconds. -/
structure PendingRow where
  message_id : String
  sender_id : String
  recipient_id : String
  recipient_device_id : Option String
  encrypted_content : String
  message_type : String
  created_at : Int
  expires_at : Int
deriving DecidableEq, Repr

/-- Storage::store_pending_message (src/server/src/storage.rs, lines 362-381):
INSERT one row with created_at = now and expires_at = now + ttl_hours. -/
def store_pending_message (spool : List PendingRow) (env : MessageEnvelope)
    (ttl_hours now : Int) : List PendingRow :=
  spool ++ [{ message_id := env.message_id
              sender_id := env.sender_id
              recipient_id := env.recipient_id
              recipient_device_id := env.recipient_device_id
              encrypted_content := env.encrypted_content
              message_type := env.message_type
              created_at := now
              expires_at := now + ttl_hours * 3600 }]

/-- Storage::delete_pending_messages (src/server/src/storage.rs,
lines 413-422): for each listed id, DELETE FROM pending_messages WHERE
message_id = that id. -/
def delete_pending_messages (spool : List PendingRow)
    (message_ids : List String) : List PendingRow :=
  message_ids.foldl
    (fun sp mid => sp.filter (fun r => r.message_id != mid)) spool

/-! ## RelaySessionFSM branches (src/server/src/handlers/websocket.rs)

The per-socket state of handle_socket is the pair of Option user_id and
Option device_id (None, None before a successful Authenticate).  A step on
one inbound frame yields the frames pushed to the own tx channel of the
socket, the frames enqueued on other channels through the manager, and the
new spool. -/

/-- Result of processing one client frame: frames sent to the own channel of
the socket, frames enqueued on channels of other connections, and the
resulting pending-message spool. -/
structure StepResult where
  ownEvents : List WsServerMessage
  fanout : List (Nat × WsServerMessage)
  spool : List PendingRow
deriving DecidableEq, Repr

/-- The WsClientMessage::Message branch of handle_socket
(src/server/src/handlers/websocket.rs, lines 111-157): when the socket is
authenticated, reject a mismatched sender with error INVALID_SENDER and do
nothing else; otherwise deliver to the recipient (by device when specified,
else to every device) when online, store the envelope in the spool, echo to
the other devices of the sender, and acknowledge. -/
def handle_message_frame (user_id device_id : Option String)
    (mgr : WebSocketManager) (spool : List PendingRow)
    (env : MessageEnvelope) (ttl_hours now : Int) : StepResult :=
  match user_id, device_id with
  | some uid, some did =>
    if env.sender_id ≠ uid then
      { ownEvents := [WsServerMessage.error "INVALID_SENDER"
          "Sender ID mismatch"]
        fanout := []
        spool := spool }
    else
      let deliver :=
        if is_user_online mgr env.recipient_id then
          match env.recipient_device_id with
          | some dev => send_to_device mgr dev (WsServerMessage.message env)
          | none => send_to_user mgr env.recipient_id
              (WsServerMessage.message env)
        else []
      let spool2 := store_pending_message spool env ttl_hours now
      let echo := send_to_other_devices mgr uid did
        (WsServerMessage.message env)
      { ownEvents := [WsServerMessage.acknowledged [env.message_id]]
        fanout := deliver ++ echo
        spool := spool2 }
  | _, _ => { ownEvents := [], fanout := [], spool := spool }

/-- The WsClientMessage::Acknowledge branch of handle_socket
(src/server/src/handlers/websocket.rs, lines 159-162): delete the listed
message ids from the spool and reply Acknowledged — without consulting the
authentication state of the socket. -/
def handle_acknowledge_frame (user_id device_id : Option String)
    (spool : List PendingRow) (message_ids : List String) : StepResult :=
  { ownEvents := [WsServerMessage.acknowledged message_ids]
    fanout := []
    spool := delete_pending_messages spool message_ids }

/-- The authenticated caller of an HTTP handler
(src/server/src/handlers/mod.rs, AuthUser). -/
structure AuthUser where
  user_id : String
  device_id : String
deriving DecidableEq, Repr

/-- POST /api/v1/messages/ack, acknowledge_messages
(src/server/src/handlers/messages.rs, lines 47-60): delete the listed ids for
any authenticated caller and return the acknowledged count; the auth argument
is never consulted beyond requiring it. -/
def acknowledge_messages (auth : AuthUser) (spool : List PendingRow)
    (message_ids : List String) : List PendingRow × Nat :=
  (delete_pending_messages spool message_ids, message_ids.length)

/-- C2: invalid-sender rejection is atomic.  On an authenticated socket with
user uid, a message frame whose envelope sender_id differs from uid yields
exactly one error frame with code INVALID_SENDER on the own channel of the
socket, enqueues nothing on any other channel (neither recipient devices nor
other devices of the sender), and leaves the spool unchanged. -/
theorem invalid_sender_rejection (uid did : String) (mgr : WebSocketManager)
    (spool : List PendingRow) (env : MessageEnvelope) (ttl_hours now : Int)
    (h : env.sender_id ≠ uid) :
    handle_message_frame (some uid) (some did) mgr spool env ttl_hours now =
      { ownEvents := [WsServerMessage.error "INVALID_SENDER"
          "Sender ID mismatch"]
        fanout := []
        spool := spool } := by
  simp [handle_message_frame, h]

/-- C2 witness: the invalid-sender rejection evaluated on a concrete
authenticated socket and envelope with sender_id U3 against authed user
U1. -/
theorem invalid_sender_rejection_witness :
    handle_message_frame (some "U1") (some "d1") WebSocketManager.empty []
      { message_id := "m1", sender_id := "U3", recipient_id := "U2",
        recipient_device_id := none, encrypted_content := "ct",
        message_type := "text", timestamp := 0 } 24 0 =
      { ownEvents := [WsServerMessage.error "INVALID_SENDER"
          "Sender ID mismatch"]
        fanout := []
        spool := [] } :=
  invalid_sender_rejection "U1" "d1" WebSocketManager.empty []
    { message_id := "m1", sender_id := "U3", recipient_id := "U2",
      recipient_device_id := none, encrypted_content := "ct",
      message_type := "text", timestamp := 0 } 24 0 (by decide)

/-- Helper: the per-id deletion loop of delete_pending_messages equals one
filter keeping exactly the rows whose message_id is not listed. -/
theorem delete_pending_messages_eq_filter (message_ids : List String)
    (spool : List PendingRow) :
    delete_pending_messages spool message_ids =
      spool.filter (fun r => !message_ids.contains r.message_id) := by
  induction message_ids generalizing spool with
  | nil => simp [delete_pending_messages]
  | cons mid rest ih =>
    simp only [delete_pending_messages, List.foldl_cons] at *
    rw [ih, List.filter_filter]
    apply List.filter_congr
    intro r _
    simp only [List.contains_cons, Bool.not_or, bne]
    rcases eq_or_ne r.message_id mid with h | h
    · simp [h]
    · simp [h, Bool.and_comm]

/-- C3: acknowledgement deletes by message_id with no ownership or
authentication check.  An ack frame on a never-authenticated socket (state
None, None) deletes every listed envelope from the spool — the result keeps
exactly the rows whose message_id is not listed — and emits an ack reply; and
the HTTP ack handler performs the same deletion for every authenticated
caller, returning the listed count, independent of whether the caller is the
recipient of any listed envelope. -/
theorem acknowledge_without_auth_or_ownership (spool : List PendingRow)
    (message_ids : List String) (caller : AuthUser) :
    handle_acknowledge_frame none none spool message_ids =
      { ownEvents := [WsServerMessage.acknowledged message_ids]
        fanout := []
        spool := spool.filter
          (fun r => !message_ids.contains r.message_id) } ∧
    acknowledge_messages caller spool message_ids =
      (spool.filter (fun r => !message_ids.contains r.message_id),
        message_ids.length) := by
  constructor
  · simp [handle_acknowledge_frame, delete_pending_messages_eq_filter]
  · simp [acknowledge_messages, delete_pending_messages_eq_filter]

/-! ## Pending-message fetch (src/server/src/storage.rs, lines 383-411)

The expires_at column is written as a chrono to_rfc3339 string
("YYYY-MM-DDTHH:MM:SS.fffffffff+00:00", src/server/src/storage.rs line 376,
line 459, line 315) while every comparison is against datetime of now, the
SQLite string "YYYY-MM-DD HH:MM:SS".  Both operands are TEXT, so SQLite
compares them byte by byte under BINARY collation: when the ten-character
date heads differ, digit order equals chronological order; when the dates
are equal, byte 10 decides — a capital T (0x54) in the stored string against
a space (0x20) in the now string — so the stored string always compares
GREATER on equal UTC dates, whatever the times of day.  The comparisons
therefore act at whole-UTC-day granularity, which the two functions below
embed over instants in epoch seconds. -/

/-- The UTC day index (whole days since the epoch) of an instant in epoch
seconds. -/
def utcDay (t : Int) : Int := Int.fdiv t 86400

/-- The SQLite TEXT comparison stored > datetime of now for an rfc3339
stored value (see the section comment): true exactly when the stored UTC day
is on or after the current UTC day — on equal dates the T beats the space,
whatever the times. -/
def rfc3339TextGtNow (stored now : Int) : Bool :=
  decide (utcDay now ≤ utcDay stored)

/-- The SQLite TEXT comparison stored <= datetime of now for an rfc3339
stored value: the two strings are never equal (T against space at byte 10),
so this is the exact negation of rfc3339TextGtNow — true exactly when the
stored UTC day is strictly before the current UTC day. -/
def rfc3339TextLeNow (stored now : Int) : Bool :=
  decide (utcDay stored < utcDay now)

/-- The row predicate of the SELECT in Storage::get_pending_messages for a
given device: recipient_id = user, recipient_device_id IS NULL OR = device,
and the TEXT comparison expires_at > datetime of now, which holds at
whole-day granularity. -/
def pendingForDevice (user_id device_id : String) (now : Int)
    (r : PendingRow) : Bool :=
  r.recipient_id == user_id &&
    (r.recipient_device_id.isNone || r.recipient_device_id == some device_id)
    && rfc3339TextGtNow r.expires_at now

/-- Storage::get_pending_messages (src/server/src/storage.rs, lines 383-411):
SELECT the rows matching the recipient (and device, when given) whose
expires_at text compares greater than the datetime-of-now text, ORDER BY
created_at ASC.  The ORDER BY is modelled as a merge sort on created_at
(every created_at is written by the same datetime SQL function, so its text
order is chronological). -/
def get_pending_messages (spool : List PendingRow) (user_id : String)
    (device_id : Option String) (now : Int) : List PendingRow :=
  match device_id with
  | some did =>
    (spool.filter (pendingForDevice user_id did now)).mergeSort
      (fun a b => decide (a.created_at ≤ b.created_at))
  | none =>
    (spool.filter (fun r => r.recipient_id == user_id &&
        rfc3339TextGtNow r.expires_at now)).mergeSort
      (fun a b => decide (a.created_at ≤ b.created_at))

/-- What the fetch actually guarantees: the result is a permutation of the
rows selected by the day-granularity predicate, ascending in created_at.
The recipient and device filters are exact, but the expiry filter only
requires the expiry day to be on or after the current day — an envelope
whose expiry instant passed earlier the same UTC day is still selected. -/
theorem get_pending_day_selection (spool : List PendingRow)
    (user_id device_id : String) (now : Int) :
    (get_pending_messages spool user_id (some device_id) now).Perm
      (spool.filter (pendingForDevice user_id device_id now)) ∧
    (get_pending_messages spool user_id (some device_id) now).Pairwise
      (fun a b => a.created_at ≤ b.created_at) ∧
    ∀ r ∈ get_pending_messages spool user_id (some device_id) now,
      r.recipient_id = user_id ∧
      (r.recipient_device_id = none ∨
        r.recipient_device_id = some device_id) ∧
      utcDay now ≤ utcDay r.expires_at := by
  refine ⟨List.mergeSort_perm _ _, ?_, ?_⟩
  · have h := @List.sorted_mergeSort PendingRow
      (fun a b => decide (a.created_at ≤ b.created_at))
      (fun a b c hab hbc => by
        simp only [decide_eq_true_eq] at *; omega)
      (fun a b => by
        simp only [Bool.or_eq_true, decide_eq_true_eq]; omega)
      (spool.filter (pendingForDevice user_id device_id now))
    exact h.imp (by simp only [decide_eq_true_eq]; exact fun h => h)
  · intro r hr
    have hmem : r ∈ spool.filter (pendingForDevice user_id device_id now) :=
      (List.mergeSort_perm _ _).mem_iff.mp hr
    have hpred := List.of_mem_filter hmem
    simp only [pendingForDevice, rfc3339TextGtNow, Bool.and_eq_true,
      Bool.or_eq_true, beq_iff_eq, Option.isNone_iff_eq_none,
      decide_eq_true_eq] at hpred
    exact ⟨hpred.1.1, hpred.1.2, hpred.2⟩

/-- C7 (code bug evidence): an EXPIRED envelope is returned.  One spooled
row for recipient r and device d is created at 10:00Z (36000) and expires at
11:00Z (39600); the fetch runs at 20:00Z (72000) of the same UTC day, nine
hours after the expiry.  Because the stored rfc3339 text compares greater
than the datetime-of-now text whenever the UTC dates are equal, the SELECT
keeps the row and the fetch returns the expired envelope in full — the
claimed strict expires_at-after-now filter does not hold of the program. -/
theorem get_pending_returns_same_day_expired :
    get_pending_messages
      [{ message_id := "m1", sender_id := "s", recipient_id := "r",
         recipient_device_id := some "d", encrypted_content := "ct",
         message_type := "text", created_at := 36000, expires_at := 39600 }]
      "r" (some "d") 72000 =
      [{ message_id := "m1", sender_id := "s", recipient_id := "r",
         recipient_device_id := some "d", encrypted_content := "ct",
         message_type := "text", created_at := 36000,
         expires_at := 39600 }] ∧
    (39600 : Int) < 72000 := by
  constructor
  · have hf : List.filter (pendingForDevice "r" "d" 72000)
        [{ message_id := "m1", sender_id := "s", recipient_id := "r",
           recipient_device_id := some "d", encrypted_content := "ct",
           message_type := "text", created_at := 36000,
           expires_at := 39600 }] =
        [{ message_id := "m1", sender_id := "s", recipient_id := "r",
           recipient_device_id := some "d", encrypted_content := "ct",
           message_type := "text", created_at := 36000,
           expires_at := 39600 }] := by decide
    show (List.filter (pendingForDevice "r" "d" 72000)
        [{ message_id := "m1", sender_id := "s", recipient_id := "r",
           recipient_device_id := some "d", encrypted_content := "ct",
           message_type := "text", created_at := 36000,
           expires_at := 39600 }]).mergeSort
        (fun a b => decide (a.created_at ≤ b.created_at)) =
      [{ message_id := "m1", sender_id := "s", recipient_id := "r",
         recipient_device_id := some "d", encrypted_content := "ct",
         message_type := "text", created_at := 36000,
         expires_at := 39600 }]
    rw [hf]
    simp
  · norm_num

/-! ## Reaper (src/server/src/storage.rs, lines 517-545) -/

/-- One row of the users table (src/server/src/storage.rs schema). -/
structure UserRow where
  user_id : String
  key_hash : String
  display_name : Option String
  avatar_file_id : Option String
  public_key : Option String
  created_at : Int
  last_seen_at : Option Int
  is_active : Bool
deriving DecidableEq, Repr

/-- One row of the devices table (src/server/src/storage.rs schema). -/
structure DeviceRow where
  device_id : String
  user_id : String
  device_name : String
  device_type : String
  push_token : Option String
  public_key : String
  created_at : Int
  last_active_at : Int
deriving DecidableEq, Repr

/-- One row of the sessions table (src/server/src/storage.rs schema). -/
structure SessionRow where
  token_hash : String
  user_id : String
  device_id : String
  created_at : Int
  expires_at : Int
  is_valid : Bool
deriving DecidableEq, Repr

/-- One row of the files table (src/server/src/storage.rs schema). -/
structure FileRow where
  file_id : String
  uploader_id : String
  file_name : String
  file_size : Int
  mime_type : String
  encryption_key_hash : String
  created_at : Int
  expires_at : Int
  download_count : Int
deriving DecidableEq, Repr

/-- The database state: one list per table of the schema
(src/server/src/storage.rs, initialize_schema). -/
structure StorageState where
  users : List UserRow
  devices : List DeviceRow
  sessions : List SessionRow
  pending_messages : List PendingRow
  files : List FileRow
deriving DecidableEq, Repr

/-- Storage::cleanup_expired (src/server/src/storage.rs, lines 517-545):
DELETE pending messages, files, and sessions whose expires_at TEXT compares
at or before the datetime-of-now TEXT — sessions also when is_valid = 0 —
and report the deleted message and file counts (rows_affected).  The
expires_at columns hold rfc3339 strings, so the comparison acts at
whole-UTC-day granularity (see the section comment on the fetch). -/
def cleanup_expired (st : StorageState) (now : Int) :
    (Int × Int) × StorageState :=
  let deletedMessages :=
    (st.pending_messages.filter
      (fun r => rfc3339TextLeNow r.expires_at now)).length
  let deletedFiles :=
    (st.files.filter (fun r => rfc3339TextLeNow r.expires_at now)).length
  ((deletedMessages, deletedFiles),
    { st with
      pending_messages :=
        st.pending_messages.filter
          (fun r => !rfc3339TextLeNow r.expires_at now)
      files := st.files.filter (fun r => !rfc3339TextLeNow r.expires_at now)
      sessions := st.sessions.filter
        (fun r => !(rfc3339TextLeNow r.expires_at now || !r.is_valid)) })

/-- Running the reaper a second time at the same instant deletes nothing,
reports (0, 0), and leaves every table unchanged: the day-granularity
deletion is idempotent. -/
theorem cleanup_expired_idempotent (st : StorageState) (now : Int) :
    cleanup_expired (cleanup_expired st now).2 now =
      ((0, 0), (cleanup_expired st now).2) := by
  have hcontra : ∀ b : Bool, (!b && b) = false := by decide
  have hself : ∀ b : Bool, (!b && !b) = !b := by decide
  simp only [cleanup_expired, List.filter_filter, hcontra, hself,
    List.filter_false, List.length_nil]
  norm_num

/-- C8 (code bug evidence): the reaper misses rows that expired earlier the
same UTC day.  One pending message, one file and one valid session all
expire at 11:00Z (39600); the reaper runs at 20:00Z (72000) of the same day.
Because the rfc3339 expires_at text never compares at or before the
datetime-of-now text on equal UTC dates, cleanup_expired deletes nothing,
reports (0, 0), and every expired row survives — the program does not remove
the rows with expires_at at or before now as claimed. -/
theorem cleanup_expired_misses_same_day_expired :
    cleanup_expired
      (StorageState.mk []
        []
        [SessionRow.mk "t" "u" "d" 0 39600 true]
        [PendingRow.mk "m1" "s" "r" none "ct" "text" 36000 39600]
        [FileRow.mk "f" "u" "n" 1 "text/plain" "h" 0 39600 0])
      72000 =
      ((0, 0),
        StorageState.mk []
          []
          [SessionRow.mk "t" "u" "d" 0 39600 true]
          [PendingRow.mk "m1" "s" "r" none "ct" "text" 36000 39600]
          [FileRow.mk "f" "u" "n" 1 "text/plain" "h" 0 39600 0]) ∧
    (39600 : Int) ≤ 72000 := by
  constructor
  · decide
  · norm_num

/-! ## SHA-256 (the sha2 and ring digest primitives called by the source;
FIPS 180-4, executable over byte lists)

Rust strings are embedded as their UTF-8 byte lists (List Nat, each element
below 256); str::len and str::as_bytes act directly on that representation. -/

/-- Reduce to a 32-bit word. -/
def w32 (x : Nat) : Nat := x % 4294967296

/-- Rotate a 32-bit word right by n bits. -/
def rotr32 (n x : Nat) : Nat := w32 (x >>> n ||| x <<< (32 - n))

/-- The SHA-256 round constants. -/
def sha256K : List Nat :=
  [1116352408, 1899447441, 3049323471, 3921009573, 961987163,
   1508970993, 2453635748, 2870763221, 3624381080, 310598401,
   607225278, 1426881987, 1925078388, 2162078206, 2614888103,
   3248222580, 3835390401, 4022224774, 264347078, 604807628,
   770255983, 1249150122, 1555081692, 1996064986, 2554220882,
   2821834349, 2952996808, 3210313671, 3336571891, 3584528711,
   113926993, 338241895, 666307205, 773529912, 1294757372,
   1396182291, 1695183700, 1986661051, 2177026350, 2456956037,
   2730485921, 2820302411, 3259730800, 3345764771, 3516065817,
   3600352804, 4094571909, 275423344, 430227734, 506948616,
   659060556, 883997877, 958139571, 1322822218, 1537002063,
   1747873779, 1955562222, 2024104815, 2227730452, 2361852424,
   2428436474, 2756734187, 3204031479, 3329325298]

/-- The SHA-256 initial hash value. -/
def sha256H0 : List Nat :=
  [1779033703, 3144134277, 1013904242, 2773480762,
   1359893119, 2600822924, 528734635, 1541459225]

/-- SHA-256 big sigma 0. -/
def bigSigma0 (x : Nat) : Nat := rotr32 2 x ^^^ rotr32 13 x ^^^ rotr32 22 x

/-- SHA-256 big sigma 1. -/
def bigSigma1 (x : Nat) : Nat := rotr32 6 x ^^^ rotr32 11 x ^^^ rotr32 25 x

/-- SHA-256 small sigma 0. -/
def smallSigma0 (x : Nat) : Nat := rotr32 7 x ^^^ rotr32 18 x ^^^ (x >>> 3)

/-- SHA-256 small sigma 1. -/
def smallSigma1 (x : Nat) : Nat := rotr32 17 x ^^^ rotr32 19 x ^^^ (x >>> 10)

/-- Group bytes into big-endian 32-bit words. -/
def bytesToWordsBE : List Nat → List Nat
  | b0 :: b1 :: b2 :: b3 :: rest =>
    (b0 * 16777216 + b1 * 65536 + b2 * 256 + b3) :: bytesToWordsBE rest
  | _ => []

/-- Split a 32-bit word into 4 big-endian bytes. -/
def wordToBytesBE (w : Nat) : List Nat :=
  [w / 16777216 % 256, w / 65536 % 256, w / 256 % 256, w % 256]

/-- The 8-byte big-endian encoding of the bit length in SHA padding. -/
def lenToBytesBE8 (n : Nat) : List Nat :=
  [n / 72057594037927936 % 256, n / 281474976710656 % 256,
   n / 1099511627776 % 256, n / 4294967296 % 256,
   n / 16777216 % 256, n / 65536 % 256, n / 256 % 256, n % 256]

/-- Merkle-Damgard padding shared by SHA-1 and SHA-256: 0x80, zeros to 56 mod
64, then the 64-bit big-endian bit length. -/
def shaPadding (msgLen : Nat) : List Nat :=
  128 :: List.replicate ((64 + 55 - msgLen % 64) % 64) 0 ++
    lenToBytesBE8 (8 * msgLen)

/-- Extend a 16-word SHA-256 message schedule by the given number of words. -/
def extendSchedule : List Nat → Nat → List Nat
  | ws, 0 => ws
  | ws, n + 1 =>
    extendSchedule
      (ws ++ [w32 (smallSigma1 (ws.getD (ws.length - 2) 0) +
        ws.getD (ws.length - 7) 0 +
        smallSigma0 (ws.getD (ws.length - 15) 0) +
        ws.getD (ws.length - 16) 0)]) n

/-- One SHA-256 compression round on the 8-word working state, consuming one
(round constant, schedule word) pair. -/
def sha256Round (st : List Nat) (kw : Nat × Nat) : List Nat :=
  match st with
  | [a, b, c, d, e, f, g, hh] =>
    let s1 := bigSigma1 e
    let ch := (e &&& f) ^^^ ((e ^^^ 4294967295) &&& g)
    let temp1 := w32 (hh + s1 + ch + kw.1 + kw.2)
    let s0 := bigSigma0 a
    let maj := (a &&& b) ^^^ (a &&& c) ^^^ (b &&& c)
    let temp2 := w32 (s0 + maj)
    [w32 (temp1 + temp2), a, b, c, w32 (d + temp1), e, f, g]
  | st => st

/-- Compress one 64-byte block into the SHA-256 chaining state. -/
def sha256Compress (h : List Nat) (block : List Nat) : List Nat :=
  let ws := extendSchedule (bytesToWordsBE block) 48
  let st := (sha256K.zip ws).foldl sha256Round h
  List.zipWith (fun a b => w32 (a + b)) h st

/-- Fold the compression function over the given number of 64-byte blocks. -/
def sha256Blocks : Nat → List Nat → List Nat → List Nat
  | 0, h, _ => h
  | n + 1, h, bytes => sha256Blocks n (sha256Compress h (bytes.take 64)) (bytes.drop 64)

/-- SHA-256 of a byte list (FIPS 180-4), as the sha2 crate and ring digest
compute it for the source. -/
def sha256 (msg : List Nat) : List Nat :=
  let padded := msg ++ shaPadding msg.length
  (sha256Blocks (padded.length / 64) sha256H0 padded).flatMap wordToBytesBE

/-! ## Access-key hashing and verification (src/server/src/crypto.rs) -/

/-- One lowercase hexadecimal digit as an ASCII byte. -/
def hexDigit (d : Nat) : Nat := if d < 10 then 48 + d else 87 + d

/-- Lowercase hex encoding of a byte list, as ASCII bytes (hex::encode). -/
def hexBytes (l : List Nat) : List Nat :=
  l.flatMap (fun b => [hexDigit (b / 16), hexDigit (b % 16)])

/-- hash_access_key (src/server/src/crypto.rs, lines 45-48): lowercase hex of
SHA-256 of the key bytes. -/
def hash_access_key (key : List Nat) : List Nat := hexBytes (sha256 key)

/-- verify_access_key (src/server/src/crypto.rs, lines 51-61): recompute the
hash, compare lengths first, then fold OR of XOR over all byte pairs and
compare the accumulator with zero — no short circuit on first mismatch. -/
def verify_access_key (key hash : List Nat) : Bool :=
  let computed_hash := hash_access_key key
  if computed_hash.length ≠ hash.length then
    false
  else
    ((computed_hash.zip hash).foldl
      (fun acc p => acc ||| (p.1 ^^^ p.2)) 0) == 0

/-- Helper: a bitwise or of naturals is zero iff both operands are zero. -/
theorem lor_eq_zero_iff (a b : Nat) : a ||| b = 0 ↔ a = 0 ∧ b = 0 := by
  constructor
  · intro h
    refine ⟨Nat.zero_of_testBit_eq_false fun i => ?_,
      Nat.zero_of_testBit_eq_false fun i => ?_⟩ <;>
    · have hbit := congrArg (fun x => x.testBit i) h
      simp only [Nat.testBit_or, Nat.zero_testBit, Bool.or_eq_false_iff]
        at hbit
      tauto
  · rintro ⟨rfl, rfl⟩
    rfl

/-- Helper: the or-of-xor accumulator of verify_access_key is zero iff the
accumulator starts at zero and every zipped byte pair is equal. -/
theorem fold_or_xor_eq_zero (l : List (Nat × Nat)) (acc : Nat) :
    (l.foldl (fun a p => a ||| (p.1 ^^^ p.2)) acc = 0) ↔
      (acc = 0 ∧ ∀ p ∈ l, p.1 = p.2) := by
  induction l generalizing acc with
  | nil => simp
  | cons p l ih =>
    simp only [List.foldl_cons, ih, lor_eq_zero_iff, List.mem_cons]
    constructor
    · rintro ⟨⟨h1, h2⟩, h3⟩
      refine ⟨h1, fun q hq => ?_⟩
      rcases hq with rfl | hq
      · exact Nat.xor_eq_zero.mp h2
      · exact h3 q hq
    · rintro ⟨h1, h2⟩
      exact ⟨⟨h1, Nat.xor_eq_zero.mpr (h2 p (Or.inl rfl))⟩,
        fun q hq => h2 q (Or.inr hq)⟩

/-- Helper: equal-length byte lists whose zipped components agree are equal. -/
theorem zip_pairs_eq (a : List Nat) : ∀ (b : List Nat),
    a.length = b.length → ((∀ p ∈ a.zip b, p.1 = p.2) ↔ a = b) := by
  induction a with
  | nil =>
    intro b hlen
    cases b with
    | nil => simp
    | cons y b => simp at hlen
  | cons x a ih =>
    intro b hlen
    cases b with
    | nil => simp at hlen
    | cons y b =>
      simp only [List.length_cons] at hlen
      simp only [List.zip_cons_cons, List.mem_cons]
      constructor
      · intro h
        have hx : x = y := h (x, y) (Or.inl rfl)
        have ha : a = b := (ih b (by omega)).mp fun p hp => h p (Or.inr hp)
        rw [hx, ha]
      · intro h p hp
        injection h with h1 h2
        rcases hp with rfl | hp
        · exact h1
        · exact (ih b (by omega)).mpr h2 p hp

/-- Helper: verify_access_key returns true exactly when the presented hash
equals the recomputed hash of the key. -/
theorem verify_access_key_iff (key hash : List Nat) :
    verify_access_key key hash = true ↔ hash = hash_access_key key := by
  by_cases hlen : (hash_access_key key).length = hash.length
  · simp only [verify_access_key, hlen, ne_eq, not_true_eq_false,
      if_false, beq_iff_eq]
    rw [fold_or_xor_eq_zero]
    rw [zip_pairs_eq _ _ hlen]
    constructor
    · rintro ⟨-, h⟩
      exact h.symm
    · rintro rfl
      exact ⟨rfl, rfl⟩
  · simp only [verify_access_key, ne_eq, hlen, not_false_eq_true, if_true,
      Bool.false_eq_true, false_iff]
    intro heq
    rw [heq] at hlen
    exact hlen rfl

/-- Helper: the lowercase hex digit map is injective below 16. -/
theorem hexDigit_inj {a b : Nat} (ha : a < 16) (hb : b < 16)
    (h : hexDigit a = hexDigit b) : a = b := by
  unfold hexDigit at h
  split_ifs at h <;> omega

/-- Helper: hex encoding is injective on lists of bytes below 256. -/
theorem hexBytes_inj : ∀ (a b : List Nat), (∀ x ∈ a, x < 256) →
    (∀ x ∈ b, x < 256) → hexBytes a = hexBytes b → a = b
  | [], [], _, _, _ => rfl
  | [], y :: b, _, _, h => by simp [hexBytes] at h
  | x :: a, [], _, _, h => by simp [hexBytes] at h
  | x :: a, y :: b, ha, hb, h => by
    simp only [hexBytes, List.flatMap_cons, List.cons_append,
      List.nil_append, List.cons.injEq] at h
    obtain ⟨h1, h2, h3⟩ := h
    have hxa : x < 256 := ha x (List.mem_cons_self x a)
    have hyb : y < 256 := hb y (List.mem_cons_self y b)
    have hd : x / 16 = y / 16 := hexDigit_inj (by omega) (by omega) h1
    have hm : x % 16 = y % 16 := hexDigit_inj (by omega) (by omega) h2
    have hxy : x = y := by omega
    have hrest : a = b := hexBytes_inj a b
      (fun z hz => ha z (List.mem_cons_of_mem x hz))
      (fun z hz => hb z (List.mem_cons_of_mem y hz)) h3
    rw [hxy, hrest]

/-- Helper: every byte of a SHA-256 digest is below 256. -/
theorem sha256_bytes_lt (msg : List Nat) : ∀ b ∈ sha256 msg, b < 256 := by
  intro b hb
  simp only [sha256, List.mem_flatMap, wordToBytesBE, List.mem_cons,
    List.not_mem_nil, or_false] at hb
  obtain ⟨w, -, hw⟩ := hb
  rcases hw with rfl | rfl | rfl | rfl <;> omega

/-- C6: access-key verification correctness.  hash_access_key is the
lowercase hex encoding of SHA-256 of the key; verify_access_key(k, h)
returns true if and only if h equals hash_access_key(k) — the comparison
checks lengths first and then requires the or-of-xor fold over all byte
pairs to be zero; and for every key2 whose SHA-256 differs from that of
key, verify_access_key(key2, hash_access_key(key)) is false. -/
theorem verify_access_key_correct :
    (∀ key, hash_access_key key = hexBytes (sha256 key)) ∧
    (∀ key hash, verify_access_key key hash = true ↔
      hash = hash_access_key key) ∧
    (∀ key key2, sha256 key2 ≠ sha256 key →
      verify_access_key key2 (hash_access_key key) = false) := by
  refine ⟨fun key => rfl, verify_access_key_iff, ?_⟩
  intro key key2 hne
  rcases Bool.eq_false_or_eq_true
    (verify_access_key key2 (hash_access_key key)) with h | h
  swap
  · exact h
  · exfalso
    have heq := (verify_access_key_iff key2 (hash_access_key key)).mp h
    simp only [hash_access_key] at heq
    have hsha : sha256 key = sha256 key2 :=
      hexBytes_inj _ _ (sha256_bytes_lt key) (sha256_bytes_lt key2) heq
    exact hne hsha.symm

/-- C6 witness: the keys are the one-byte strings B and A; their SHA-256
digests differ, so verifying key B against the stored hash of key A
returns false. -/
theorem verify_access_key_correct_witness :
    verify_access_key [66] (hash_access_key [65]) = false :=
  verify_access_key_correct.2.2 [65] [66] (by decide)

/-! ## SHA-1, HMAC-SHA1 and standard base64 (the ring hmac and base64
STANDARD primitives used for TURN credentials; RFC 3174, RFC 2104,
RFC 4648) -/

/-- Rotate a 32-bit word left by n bits. -/
def rotl32 (n x : Nat) : Nat := w32 (x <<< n ||| x >>> (32 - n))

/-- The SHA-1 initial state. -/
def sha1H0 : List Nat :=
  [1732584193, 4023233417, 2562383102, 271733878, 3285377520]

/-- Extend the 16-word SHA-1 message schedule by the given number of
words. -/
def sha1ExtendSchedule : List Nat → Nat → List Nat
  | ws, 0 => ws
  | ws, n + 1 =>
    sha1ExtendSchedule
      (ws ++ [rotl32 1 (ws.getD (ws.length - 3) 0 ^^^
        ws.getD (ws.length - 8) 0 ^^^ ws.getD (ws.length - 14) 0 ^^^
        ws.getD (ws.length - 16) 0)]) n

/-- The SHA-1 round function for round i. -/
def sha1F (i b c d : Nat) : Nat :=
  if i < 20 then (b &&& c) ||| ((b ^^^ 4294967295) &&& d)
  else if i < 40 then b ^^^ c ^^^ d
  else if i < 60 then (b &&& c) ||| (b &&& d) ||| (c &&& d)
  else b ^^^ c ^^^ d

/-- The SHA-1 round constant for round i. -/
def sha1K (i : Nat) : Nat :=
  if i < 20 then 1518500249
  else if i < 40 then 1859775393
  else if i < 60 then 2400959708
  else 3395469782

/-- One SHA-1 round on the 5-word working state, consuming one pair of
round index and schedule word. -/
def sha1Round (st : List Nat) (iw : Nat × Nat) : List Nat :=
  match st with
  | [a, b, c, d, e] =>
    let temp := w32 (rotl32 5 a + sha1F iw.1 b c d + e + sha1K iw.1 + iw.2)
    [temp, a, rotl32 30 b, c, d]
  | st => st

/-- Compress one 64-byte block into the SHA-1 chaining state. -/
def sha1Compress (h : List Nat) (block : List Nat) : List Nat :=
  let ws := sha1ExtendSchedule (bytesToWordsBE block) 64
  let st := ((List.range 80).zip ws).foldl sha1Round h
  List.zipWith (fun a b => w32 (a + b)) h st

/-- Fold SHA-1 compression over the given number of 64-byte blocks. -/
def sha1Blocks : Nat → List Nat → List Nat → List Nat
  | 0, h, _ => h
  | n + 1, h, bytes =>
    sha1Blocks n (sha1Compress h (bytes.take 64)) (bytes.drop 64)

/-- SHA-1 of a byte list (RFC 3174), as ring computes it for HMAC. -/
def sha1 (msg : List Nat) : List Nat :=
  let padded := msg ++ shaPadding msg.length
  (sha1Blocks (padded.length / 64) sha1H0 padded).flatMap wordToBytesBE

/-- HMAC-SHA1 (RFC 2104, block size 64 bytes), as ring hmac with the
HMAC_SHA1_FOR_LEGACY_USE_ONLY algorithm computes it: a key longer than one
block is hashed first, the key is zero-padded to the block, and the tag is
sha1(opad-key ++ sha1(ipad-key ++ msg)). -/
def hmacSha1 (key msg : List Nat) : List Nat :=
  let k0 := if 64 < key.length then sha1 key else key
  let kp := k0 ++ List.replicate (64 - k0.length) 0
  sha1 ((kp.map (fun b => b ^^^ 92)) ++
    sha1 ((kp.map (fun b => b ^^^ 54)) ++ msg))

/-- The standard base64 alphabet (RFC 4648). -/
def base64Alphabet : List Char :=
  "ABCDEFGHIJKLMNOPQRSTUVWXYZabcdefghijklmnopqrstuvwxyz0123456789+/".data

/-- One standard base64 character for a 6-bit value. -/
def base64Char (n : Nat) : Char := base64Alphabet.getD n ' '

/-- Standard base64 with '=' padding over a byte list, three input bytes per
four output characters (the base64 STANDARD engine used by the source). -/
def base64Chars : List Nat → List Char
  | [] => []
  | [b0] => [base64Char (b0 / 4), base64Char (b0 % 4 * 16), '=', '=']
  | [b0, b1] =>
    [base64Char (b0 / 4), base64Char (b0 % 4 * 16 + b1 / 16),
      base64Char (b1 % 16 * 4), '=']
  | b0 :: b1 :: b2 :: rest =>
    base64Char (b0 / 4) :: base64Char (b0 % 4 * 16 + b1 / 16) ::
      base64Char (b1 % 16 * 4 + b2 / 64) :: base64Char (b2 % 64) ::
      base64Chars rest

/-- Standard base64 with padding, as a string. -/
def base64Std (l : List Nat) : String := (base64Chars l).asString

/-- UTF-8 encoding of one character (the str::as_bytes view of Rust
strings). -/
def utf8Char (c : Char) : List Nat :=
  let n := c.toNat
  if n < 128 then [n]
  else if n < 2048 then [192 + n / 64, 128 + n % 64]
  else if n < 65536 then
    [224 + n / 4096, 128 + n / 64 % 64, 128 + n % 64]
  else
    [240 + n / 262144, 128 + n / 4096 % 64, 128 + n / 64 % 64,
      128 + n % 64]

/-- UTF-8 byte list of a string. -/
def utf8Bytes (s : String) : List Nat := s.data.flatMap utf8Char

/-! ## TURN credentials (src/server/src/crypto.rs, lines 114-125) -/

/-- generate_turn_credentials (src/server/src/crypto.rs, lines 114-125) with
the clock made explicit: timestamp = now + ttl_seconds (epoch seconds),
turn_username is the timestamp, a colon, and the username, and the
credential is standard base64 of the HMAC-SHA1 signature of turn_username
keyed by the secret. -/
def generate_turn_credentials (username secret : String)
    (ttl_seconds now : Nat) : String × String :=
  let timestamp := now + ttl_seconds
  let turn_username := toString timestamp ++ ":" ++ username
  let signature := hmacSha1 (utf8Bytes secret) (utf8Bytes turn_username)
  (turn_username, base64Std signature)

/-- The TURN credential pair as the spec words it, for comparison: username
is the expiry epoch seconds, a colon, and the configured username; the
credential is standard base64 of HMAC-SHA1 of that username keyed by the
configured credential. -/
def turnCredentialsSpec (username secret : String)
    (ttl_seconds now : Nat) : String × String :=
  let ts := now + ttl_seconds
  let turn_user := toString ts ++ ":" ++ username
  (turn_user, base64Std (hmacSha1 (utf8Bytes secret) (utf8Bytes turn_user)))

/-- Helper: sha1Round preserves the length of the working state. -/
theorem sha1Round_length (st : List Nat) (iw : Nat × Nat) :
    (sha1Round st iw).length = st.length := by
  rcases st with _ | ⟨a, _ | ⟨b, _ | ⟨c, _ | ⟨d, _ | ⟨e, _ | ⟨f, st⟩⟩⟩⟩⟩⟩ <;>
    simp [sha1Round]

/-- Helper: the SHA-1 round fold preserves the state length. -/
theorem foldl_sha1Round_length (l : List (Nat × Nat)) (st : List Nat) :
    (l.foldl sha1Round st).length = st.length := by
  induction l generalizing st with
  | nil => rfl
  | cons p l ih => rw [List.foldl_cons, ih, sha1Round_length]

/-- Helper: SHA-1 compression preserves the 5-word state length. -/
theorem sha1Compress_length (h block : List Nat) (h5 : h.length = 5) :
    (sha1Compress h block).length = 5 := by
  simp [sha1Compress, List.length_zipWith, foldl_sha1Round_length, h5]

/-- Helper: the SHA-1 block fold preserves the 5-word state length. -/
theorem sha1Blocks_length : ∀ (n : Nat) (h bytes : List Nat),
    h.length = 5 → (sha1Blocks n h bytes).length = 5
  | 0, h, _, h5 => h5
  | n + 1, h, bytes, h5 =>
    sha1Blocks_length n _ _ (sha1Compress_length h (bytes.take 64) h5)

/-- Helper: flatMap of 4-byte words multiplies length by 4. -/
theorem length_flatMap_wordToBytesBE (l : List Nat) :
    (l.flatMap wordToBytesBE).length = 4 * l.length := by
  induction l with
  | nil => rfl
  | cons w l ih =>
    simp [List.flatMap_cons, ih, wordToBytesBE]
    omega

/-- Helper: a SHA-1 digest has 20 bytes. -/
theorem sha1_length (msg : List Nat) : (sha1 msg).length = 20 := by
  show ((sha1Blocks ((msg ++ shaPadding msg.length).length / 64) sha1H0
    (msg ++ shaPadding msg.length)).flatMap wordToBytesBE).length = 20
  rw [length_flatMap_wordToBytesBE, sha1Blocks_length
    ((msg ++ shaPadding msg.length).length / 64) sha1H0
    (msg ++ shaPadding msg.length) rfl]

/-- Helper: an HMAC-SHA1 tag has 20 bytes. -/
theorem hmacSha1_length (key msg : List Nat) :
    (hmacSha1 key msg).length = 20 :=
  sha1_length _

/-- Helper: base64 produces four characters for every started triple of
input bytes. -/
theorem base64Chars_length : ∀ l : List Nat,
    (base64Chars l).length = (l.length + 2) / 3 * 4
  | [] => by simp [base64Chars]
  | [_] => by simp [base64Chars]
  | [_, _] => by simp [base64Chars]
  | b0 :: b1 :: b2 :: rest => by
    simp only [base64Chars, List.length_cons,
      base64Chars_length rest]
    omega

/-- C9: TURN credential formula and determinism.  At explicit time now,
generate_turn_credentials(u, s, t) returns exactly the pair whose first
component is the string of now + t (epoch seconds) followed by a colon and
u, and whose second component is standard base64 (with padding) of the
HMAC-SHA1 of that username string keyed by s; the result agrees with the
spec-side formula definition, is a pure function of (u, s, t, now) — two
evaluations agree — and the credential encodes the 20-byte tag as 28 base64
characters. -/
theorem generate_turn_credentials_formula (username secret : String)
    (ttl_seconds now : Nat) :
    generate_turn_credentials username secret ttl_seconds now =
      (toString (now + ttl_seconds) ++ ":" ++ username,
        base64Std (hmacSha1 (utf8Bytes secret)
          (utf8Bytes (toString (now + ttl_seconds) ++ ":" ++ username)))) ∧
    generate_turn_credentials username secret ttl_seconds now =
      turnCredentialsSpec username secret ttl_seconds now ∧
    (base64Chars (hmacSha1 (utf8Bytes secret)
      (utf8Bytes ((generate_turn_credentials username secret ttl_seconds
        now).1)))).length = 28 := by
  refine ⟨rfl, rfl, ?_⟩
  rw [base64Chars_length, hmacSha1_length]

end SecureMessenger
